import Mathlib

/-!
Verification development for the `cleaner-spec-reporter` stream formatter
(`src/index.ts`).  The TypeScript source is embedded shallowly:

* JS numbers are modelled as exact unnormalized rationals (`JsNum`), since
  every value the reporter manipulates (counters parsed from decimal text,
  millisecond durations, nesting levels) is an exact decimal; `Option JsNum`
  models a possibly-`undefined`/`NaN` number, with `none` behaving as JS
  `undefined`/`NaN` does in comparisons (always false) and rendering.
* Strings are Lean `String`s built with `++`; character-level scanning is
  done on `List Char`.
* A thrown JS `TypeError` is modelled as `Except JsError`; a handler returns
  its mutated state together with the outcome, so state changes performed
  before a throw are preserved, exactly as for a real exception.
-/

namespace CleanerSpec

/-- Model of a thrown JS runtime error (the reporter can only hit
`TypeError` by dereferencing `undefined`). -/
inductive JsError where
  | typeError
deriving DecidableEq, Repr

/-- Exact rational standing in for a JS number.  Kept unnormalized so that
all arithmetic reduces in the kernel (Mathlib's `ℚ` normalizes through
`Nat.gcd`, which is not kernel-reducible). -/
structure JsNum where
  num : Int
  den : Nat
  den_pos : 0 < den

/-- The rational value denoted by a `JsNum`. -/
def JsNum.toRat (q : JsNum) : ℚ := (q.num : ℚ) / (q.den : ℚ)

/-- Embed an integer. -/
def jsInt (n : Int) : JsNum := ⟨n, 1, Nat.one_pos⟩

/-- JS `<=` on numbers, by cross multiplication (denominators are positive). -/
def jsLe (a b : JsNum) : Prop := a.num * b.den ≤ b.num * a.den

/-- JS `<` on numbers. -/
def jsLt (a b : JsNum) : Prop := a.num * b.den < b.num * a.den

/-- JS `===` between a number and an integer literal. -/
def jsEqInt (q : JsNum) (m : Int) : Prop := q.num = m * q.den

instance (a b : JsNum) : Decidable (jsLe a b) := by unfold jsLe; infer_instance
instance (a b : JsNum) : Decidable (jsLt a b) := by unfold jsLt; infer_instance
instance (q : JsNum) (m : Int) : Decidable (jsEqInt q m) := by
  unfold jsEqInt; infer_instance

/-- JS `Math.floor`. -/
def jsFloor (q : JsNum) : Int := q.num / (q.den : Int)

/-- JS truncation toward zero, as used by the `%` remainder operator. -/
def jsTruncDiv (q : JsNum) : Int := q.num.tdiv (q.den : Int)

/-- Division of a JS number by a positive integer constant. -/
def jsDivC (q : JsNum) (k : Nat) (hk : 0 < k) : JsNum :=
  ⟨q.num, q.den * k, Nat.mul_pos q.den_pos hk⟩

/-- Subtract an integer from a JS number. -/
def jsSubInt (q : JsNum) (m : Int) : JsNum :=
  ⟨q.num - m * q.den, q.den, q.den_pos⟩

/-- JS remainder `q % k` for a positive integer constant `k`:
`q - k * trunc(q / k)`. -/
def jsModC (q : JsNum) (k : Nat) (hk : 0 < k) : JsNum :=
  jsSubInt q ((k : Int) * jsTruncDiv (jsDivC q k hk))

/-- JS `Math.round`: `⌊x + 1/2⌋` (ties go toward `+∞`). -/
def jsRound (q : JsNum) : Int :=
  jsFloor ⟨2 * q.num + q.den, 2 * q.den, by have := q.den_pos; omega⟩

/-- JS addition of possibly-`undefined` numbers; `none` propagates as NaN. -/
def jsAdd : Option JsNum → Option JsNum → Option JsNum
  | some a, some b => some ⟨a.num * b.den + b.num * a.den, a.den * b.den,
      Nat.mul_pos a.den_pos b.den_pos⟩
  | _, _ => none

/-- JS `x > 0` where `x` may be `undefined`/NaN (then the comparison is
false). -/
def jsGtZero : Option JsNum → Bool
  | some q => decide (jsLt (jsInt 0) q)
  | none => false

/-- Decimal digits of a natural number, most significant first.  Uses
explicit fuel so that it is structurally recursive (hence
kernel-reducible); `n + 1` fuel always suffices. -/
def natChars : Nat → Nat → List Char
  | 0, _ => []
  | fuel + 1, n =>
    if n < 10 then [Nat.digitChar n]
    else natChars fuel (n / 10) ++ [Nat.digitChar (n % 10)]

/-- Decimal string of a natural number. -/
def natStr (n : Nat) : String := String.mk (natChars (n + 1) n)

/-- Decimal string of an integer, as JS prints integral numbers. -/
def intStr (i : Int) : String :=
  if i < 0 then "-" ++ natStr i.natAbs else natStr i.natAbs

/-- Rendering of a JS number by string interpolation.  Integral values print
exactly as JS does; a non-integral value is printed as an exact fraction
(JS would print the shortest round-tripping decimal — every value a claim
evaluates is integral, where the two renderings agree). -/
def ratStr (q : JsNum) : String :=
  if q.num % (q.den : Int) = 0 then intStr (q.num / (q.den : Int))
  else intStr q.num ++ "/" ++ natStr q.den

/-- Interpolation of a possibly-`undefined` number read directly from a
field, as in `` `${x}` ``. -/
def jsFieldStr : Option JsNum → String
  | some q => ratStr q
  | none => "undefined"

/-- Interpolation of an arithmetic result: a missing operand has produced
NaN. -/
def jsSumStr : Option JsNum → String
  | some q => ratStr q
  | none => "NaN"

/-- Left-pad a character list with zeros to width `w`. -/
def zeroPad (w : Nat) (l : List Char) : List Char :=
  List.replicate (w - l.length) '0' ++ l

/-- JS `Number.prototype.toFixed` on a nonnegative exact rational: round to
`digits` decimals, ties toward `+∞`. -/
def toFixedNN (q : JsNum) (digits : Nat) : String :=
  let scaled : Nat :=
    (jsFloor ⟨2 * q.num * (10 ^ digits : Nat) + q.den, 2 * q.den,
      by have := q.den_pos; omega⟩).toNat
  if digits = 0 then natStr scaled
  else
    natStr (scaled / 10 ^ digits) ++ "." ++
      String.mk (zeroPad digits (natChars (scaled % 10 ^ digits + 1) (scaled % 10 ^ digits)))

/-- JS `toFixed`, handling the sign as the ECMAScript algorithm does, and
`undefined`/NaN inputs rendering as `"NaN"`. -/
def toFixed (q : Option JsNum) (digits : Nat) : String :=
  match q with
  | none => "NaN"
  | some q =>
    if jsLt q (jsInt 0) then "-" ++ toFixedNN ⟨-q.num, q.den, q.den_pos⟩ digits
    else toFixedNN q digits

/-- Source `pastBeingVerb`: `count === 1 ? 'was' : 'were'`; an
`undefined`/NaN count is never `=== 1`. -/
def pastBeingVerb (count : Option JsNum) : String :=
  match count with
  | some c => if jsEqInt c 1 then "was" else "were"
  | none => "were"

/-- Source `pluralize`: append `s` when `count > 1 || (count > 0 && count < 1)`;
comparisons against an `undefined`/NaN count are false. -/
def pluralize (word : String) (count : Option JsNum) : String :=
  word ++
    match count with
    | some c => if jsLt (jsInt 1) c ∨ (jsLt (jsInt 0) c ∧ jsLt c (jsInt 1)) then "s" else ""
    | none => ""

/-- Source `niceJoin` with explicit separators (the source defaults them to
`" and "` / `", "`). -/
def niceJoin (array : List String) (lastSeparator separator : String) : String :=
  match array with
  | [] => ""
  | [a] => a
  | [a, b] => a ++ lastSeparator ++ b
  | _ => String.intercalate separator array.dropLast ++ lastSeparator ++
      (array.getLast?.getD "")

/-- Specialization of `niceJoin` at its default separators, as every call site in the source
uses it. -/
def niceJoinD (array : List String) : String := niceJoin array " and " ", "

/-- One component of a formatted duration, before rendering: the integral
hour/minute counts pushed by `formatDuration`, and the residual seconds. -/
inductive DurPart where
  | hours (n : Int)
  | minutes (n : Int)
  | seconds (q : Option JsNum)

/-- Whether JS `Math.round(q) !== q`, i.e. the number is fractional; an
`undefined`/NaN value satisfies the inequality. -/
def jsFractional : Option JsNum → Bool
  | some q => decide (¬ jsEqInt q (jsRound q))
  | none => true

/-- The duration components `formatDuration` pushes: hours when
`duration >= 3600`, then minutes when the remainder is `>= 60`, then always
the residual seconds (`duration` is in seconds after the initial `/= 1000`).
Comparisons against an `undefined`/NaN duration are false, so NaN skips both
tiers, as in JS. -/
def durParts (ms : Option JsNum) : List DurPart :=
  match ms with
  | none => [DurPart.seconds none]
  | some ms =>
    let d0 := jsDivC ms 1000 (by omega)
    let hPart := if jsLe (jsInt 3600) d0 then
        [DurPart.hours (jsFloor (jsDivC d0 3600 (by omega)))] else []
    let d1 := if jsLe (jsInt 3600) d0 then jsModC d0 3600 (by omega) else d0
    let mPart := if jsLe (jsInt 60) d1 then
        [DurPart.minutes (jsFloor (jsDivC d1 60 (by omega)))] else []
    let d2 := if jsLe (jsInt 60) d1 then jsModC d1 60 (by omega) else d1
    hPart ++ mPart ++ [DurPart.seconds (some d2)]

/-- Rendering of one duration component, exactly as `formatDuration` builds
its message strings. -/
def renderDurPart : DurPart → String
  | DurPart.hours n => intStr n ++ " " ++ pluralize "hour" (some (jsInt n))
  | DurPart.minutes n => intStr n ++ " " ++ pluralize "minute" (some (jsInt n))
  | DurPart.seconds q =>
      toFixed q (if jsFractional q then 3 else 0) ++ " " ++ pluralize "second" q

/-- Source `formatDuration`: decompose into hour/minute/second components and
join them naturally. -/
def formatDuration (duration : Option JsNum) : String :=
  niceJoinD ((durParts duration).map renderDurPart)

/-- The denominator of a `JsNum`, as a positive rational. -/
theorem den_pos_rat (q : JsNum) : (0 : ℚ) < (q.den : ℚ) := by
  exact_mod_cast q.den_pos

/-- Cross-multiplied `<` agrees with the rational order. -/
theorem jsLt_iff (a b : JsNum) : jsLt a b ↔ a.toRat < b.toRat := by
  unfold jsLt JsNum.toRat
  rw [div_lt_div_iff (den_pos_rat a) (den_pos_rat b)]
  constructor <;> intro h <;> exact_mod_cast h

/-- Cross-multiplied `≤` agrees with the rational order. -/
theorem jsLe_iff (a b : JsNum) : jsLe a b ↔ a.toRat ≤ b.toRat := by
  unfold jsLe JsNum.toRat
  rw [div_le_div_iff (den_pos_rat a) (den_pos_rat b)]
  constructor <;> intro h <;> exact_mod_cast h

/-- Comparison `jsEqInt` agrees with rational equality to the integer. -/
theorem jsEqInt_iff (q : JsNum) (m : Int) : jsEqInt q m ↔ q.toRat = (m : ℚ) := by
  unfold jsEqInt JsNum.toRat
  rw [div_eq_iff (den_pos_rat q).ne']
  constructor <;> intro h <;> exact_mod_cast h

/-- The value of an embedded integer. -/
theorem toRat_jsInt (n : Int) : (jsInt n).toRat = (n : ℚ) := by
  unfold jsInt JsNum.toRat; simp

/-- Floor `jsFloor` is the rational floor. -/
theorem jsFloor_eq (q : JsNum) : jsFloor q = ⌊q.toRat⌋ := by
  unfold jsFloor JsNum.toRat
  exact (Rat.floor_intCast_div_natCast q.num q.den).symm

/-- Dividing by a positive constant divides the value. -/
theorem toRat_jsDivC (q : JsNum) (k : Nat) (hk : 0 < k) :
    (jsDivC q k hk).toRat = q.toRat / (k : ℚ) := by
  unfold jsDivC JsNum.toRat
  push_cast
  rw [div_div]

/-- Subtracting an integer subtracts the value. -/
theorem toRat_jsSubInt (q : JsNum) (m : Int) :
    (jsSubInt q m).toRat = q.toRat - (m : ℚ) := by
  unfold jsSubInt JsNum.toRat
  have hd := (den_pos_rat q).ne'
  push_cast
  field_simp
  ring

/-- Value nonnegativity is numerator nonnegativity. -/
theorem toRat_nonneg (q : JsNum) : 0 ≤ q.toRat ↔ 0 ≤ q.num := by
  unfold JsNum.toRat
  rw [le_div_iff (den_pos_rat q), zero_mul]
  constructor <;> intro h <;> exact_mod_cast h

/-- Truncating division agrees with the floor on nonnegative values. -/
theorem jsTruncDiv_eq_floor (q : JsNum) (h : 0 ≤ q.num) :
    jsTruncDiv q = ⌊q.toRat⌋ := by
  unfold jsTruncDiv
  rw [Int.tdiv_eq_ediv h (by positivity)]
  exact jsFloor_eq q

/-- Rounding `jsRound` is `⌊x + 1/2⌋` on values. -/
theorem jsRound_eq (q : JsNum) : jsRound q = ⌊q.toRat + 1 / 2⌋ := by
  unfold jsRound
  rw [jsFloor_eq]
  congr 1
  unfold JsNum.toRat
  have hd := (den_pos_rat q).ne'
  push_cast
  field_simp
  ring

/-- The remainder operation on values. -/
theorem toRat_jsModC (q : JsNum) (k : Nat) (hk : 0 < k) (h : 0 ≤ q.num) :
    (jsModC q k hk).toRat = q.toRat - (k : ℚ) * ⌊q.toRat / (k : ℚ)⌋ := by
  unfold jsModC
  rw [toRat_jsSubInt]
  push_cast
  rw [jsTruncDiv_eq_floor (jsDivC q k hk) h, toRat_jsDivC]

/-- Bounds for `x - k⌊x/k⌋` with `k > 0`: it lies in `[0, k)`. -/
theorem sub_mul_floor_bounds (x k : ℚ) (hk : 0 < k) :
    0 ≤ x - k * ⌊x / k⌋ ∧ x - k * ⌊x / k⌋ < k := by
  have h1 : x - k * ⌊x / k⌋ = k * Int.fract (x / k) := by
    rw [Int.fract]
    field_simp
  constructor
  · rw [h1]; exact mul_nonneg hk.le (Int.fract_nonneg _)
  · rw [h1]
    calc k * Int.fract (x / k) < k * 1 :=
          mul_lt_mul_of_pos_left (Int.fract_lt_one _) hk
      _ = k := mul_one k

/-- No digit character is a dot. -/
theorem digitChar_ne_dot (k : Nat) (hk : k < 10) : Nat.digitChar k ≠ '.' := by
  interval_cases k <;> decide

/-- The decimal digits of a natural number never contain a dot. -/
theorem natChars_no_dot (fuel : Nat) : ∀ (n : Nat), '.' ∉ natChars fuel n := by
  induction fuel with
  | zero => intro n; simp [natChars]
  | succ f ih =>
    intro n
    unfold natChars
    split
    · rename_i h
      intro hmem
      rw [List.mem_singleton] at hmem
      exact digitChar_ne_dot n h hmem.symm
    · intro hmem
      rcases List.mem_append.mp hmem with h1 | h2
      · exact ih _ h1
      · rw [List.mem_singleton] at h2
        exact digitChar_ne_dot (n % 10) (Nat.mod_lt _ (by omega)) h2.symm

/-- A natural below `10 ^ k` has at most `k` decimal digits. -/
theorem natChars_length_le (k : Nat) (hk : 1 ≤ k) :
    ∀ (fuel n : Nat), n < 10 ^ k → (natChars fuel n).length ≤ k := by
  induction k with
  | zero => omega
  | succ k ih =>
    intro fuel n hn
    cases fuel with
    | zero => simp [natChars]
    | succ f =>
      unfold natChars
      split
      · simp only [List.length_singleton]
        exact hk
      · rename_i h
        rw [List.length_append, List.length_singleton]
        have hk1 : 1 ≤ k := by
          rcases Nat.eq_or_lt_of_le hk with h1 | h1
          · exfalso
            rw [← h1] at hn
            simp at hn
            omega
          · omega
        have hdiv : n / 10 < 10 ^ k := by
          rw [Nat.div_lt_iff_lt_mul (by omega)]
          calc n < 10 ^ (k + 1) := hn
            _ = 10 ^ k * 10 := by rw [pow_succ]
        have := ih hk1 f (n / 10) hdiv
        omega

/-- Zero-padding to a width at least the length yields exactly that width. -/
theorem zeroPad_length (w : Nat) (l : List Char) (h : l.length ≤ w) :
    (zeroPad w l).length = w := by
  unfold zeroPad
  rw [List.length_append, List.length_replicate]
  omega

/-- Zero-padding introduces no dot. -/
theorem zeroPad_no_dot (w : Nat) (l : List Char) (h : '.' ∉ l) :
    '.' ∉ zeroPad w l := by
  unfold zeroPad
  intro hmem
  rcases List.mem_append.mp hmem with h1 | h2
  · rw [List.mem_replicate] at h1
    exact absurd h1.2 (by decide)
  · exact h h2

/-- Digits of a decimal literal folded into a natural number. -/
def digitsToNat (l : List Char) : Nat :=
  l.foldl (fun a c => a * 10 + (c.toNat - '0'.toNat)) 0

/-- JS `parseInt` on a digit string (as produced by the anchored matchers
below; the source falls back to `'0'` when a match is absent). -/
def parseIntDigits (l : List Char) : Nat := digitsToNat l

/-- JS `parseFloat` of a `\d+(\.\d+)?` match: an exact decimal. -/
def parseDecimal (l : List Char) : JsNum :=
  let ip := l.takeWhile Char.isDigit
  let rest := l.drop ip.length
  match rest with
  | '.' :: fs =>
    ⟨(digitsToNat ip * 10 ^ fs.length + digitsToNat fs : Nat), 10 ^ fs.length,
      Nat.pos_pow_of_pos _ (by omega)⟩
  | _ => ⟨(digitsToNat ip : Nat), 1, Nat.one_pos⟩

/-- The ASCII part of the JS `\s` character class (the only whitespace the
runner emits). -/
def jsSpace (c : Char) : Bool :=
  c = ' ' ∨ c = '\t' ∨ c = '\n' ∨ c = '\r' ∨ c = '\x0b' ∨ c = '\x0c'

/-- The counter names of `SUMMARY_MATCHER`, in the alternation order of the
source regex (no alternative is a prefix of another, so at any position at
most one can start a match). -/
def counterNames : List String :=
  ["tests", "suites", "pass", "fail", "cancelled", "skipped", "todo", "duration_ms"]

/-- Try to match `name\s+\d+(\.\d+)?` for one alternation `name` at the head
of `l`; returns the counter name, the number text, and the unconsumed rest. -/
def matchCounterHead (name : String) (l : List Char) :
    Option (String × List Char × List Char) :=
  if name.data.isPrefixOf l then
    let afterName := l.drop name.data.length
    let spaces := afterName.takeWhile jsSpace
    if spaces.isEmpty then none
    else
      let afterSpaces := afterName.drop spaces.length
      let digits := afterSpaces.takeWhile Char.isDigit
      if digits.isEmpty then none
      else
        let afterDigits := afterSpaces.drop digits.length
        match afterDigits with
        | '.' :: t =>
          let frac := t.takeWhile Char.isDigit
          if frac.isEmpty then some (name, digits, afterDigits)
          else some (name, digits ++ '.' :: frac, t.drop frac.length)
        | _ => some (name, digits, afterDigits)
  else none

/-- Try every alternation of `SUMMARY_MATCHER` at the current position. -/
def matchCounterAt (l : List Char) : Option (String × List Char × List Char) :=
  counterNames.foldr (fun name acc => (matchCounterHead name l).orElse fun _ => acc) none

/-- JS regex search for `SUMMARY_MATCHER` (the pattern is unanchored, so JS
scans positions left to right and stops at the leftmost match). -/
def summarySearch : List Char → Option (String × List Char × List Char)
  | [] => none
  | c :: t => (matchCounterAt (c :: t)).orElse fun _ => summarySearch t

/-- Spec-side notion (for claim C7 only): the whole diagnostic message is one
machine-parsable fragment of the form `counterName <number>` — the match is
anchored at both ends, unlike the source regex. -/
def isSummaryFragmentSpec (m : String) : Bool :=
  match matchCounterAt m.data with
  | some (_, _, rest) => rest.isEmpty
  | none => false

/-- Spec-side basename (for claim C2 only): the file path stripped of
directory, i.e. the last `/`-separated component. -/
def basenameSpec (path : String) : String :=
  String.mk (((path.data.splitOn '/').getLast?).getD path.data)

/-- Anchored matcher for ``/^(\d+) subtest(s)? failed$/`` on an error
message; yields the captured digit group. -/
def subtestsFailedMatch (l : List Char) : Option (List Char) :=
  let digits := l.takeWhile Char.isDigit
  if digits.isEmpty then none
  else
    let rest := l.drop digits.length
    if rest = " subtest failed".data ∨ rest = " subtests failed".data then some digits
    else none

/-- Anchored matcher for ``/^test timed out after (\d+)ms$/``. -/
def timeoutMatch (l : List Char) : Option (List Char) :=
  if "test timed out after ".data.isPrefixOf l then
    let rest := l.drop "test timed out after ".data.length
    let digits := rest.takeWhile Char.isDigit
    if digits.isEmpty then none
    else if rest.drop digits.length = "ms".data then some digits
    else none
  else none

/-- Greedy split for `(.+) hook`: the largest `k ≥ 1` such that `" hook"`
follows position `k` of the line, with the capture being the first `k`
characters (the regex `.` cannot cross a newline; greediness backtracks from
the longest candidate, i.e. the last occurrence of `" hook"`). -/
def lastHookSplit (line : List Char) : Option (List Char) :=
  (List.range (line.length + 1)).foldl
    (fun acc k =>
      if 1 ≤ k ∧ " hook".data.isPrefixOf (line.drop k) then some (line.take k) else acc)
    none

/-- Capture for the unanchored ``/failed running (.+) hook/`` anchored at one
position. -/
def hookCaptureAt (l : List Char) : Option (List Char) :=
  if "failed running ".data.isPrefixOf l then
    lastHookSplit ((l.drop "failed running ".data.length).takeWhile (fun c => c ≠ '\n'))
  else none

/-- JS regex search for `FAILED_HOOK_MATCHER`: leftmost position at which the
whole pattern matches wins. -/
def hookSearch : List Char → Option (List Char)
  | [] => none
  | c :: t => (hookCaptureAt (c :: t)).orElse fun _ => hookSearch t

/-- Normalize CRLF to LF, as `split(/\r?\n/).join('\n')` does (a lone
carriage return is untouched). -/
def replaceCRLF : List Char → List Char
  | '\r' :: '\n' :: t => '\n' :: replaceCRLF t
  | c :: t => c :: replaceCRLF t
  | [] => []

/-- Split a character list on newline characters (like `split('\n')`: a
trailing newline yields a final empty piece). -/
def splitOnNl : List Char → List (List Char)
  | [] => [[]]
  | c :: t =>
    if c = '\n' then [] :: splitOnNl t
    else
      match splitOnNl t with
      | [] => [[c]]
      | h :: r => (c :: h) :: r

/-- Structured error value (`TestError`): `cause` may be a nested error or a
plain string, and any field may be absent on the raw event. -/
inductive ErrVal where
  | mk (message : Option String) (failureType : Option String)
      (cause : Option (String ⊕ ErrVal))

/-- Field accessor for `ErrVal.message`. -/
def ErrVal.message : ErrVal → Option String
  | ErrVal.mk m _ _ => m

/-- Field accessor for `ErrVal.failureType`. -/
def ErrVal.failureType : ErrVal → Option String
  | ErrVal.mk _ f _ => f

/-- Field accessor for `ErrVal.cause`. -/
def ErrVal.cause : ErrVal → Option (String ⊕ ErrVal)
  | ErrVal.mk _ _ c => c

/-- The `details` sub-object of an event payload. -/
structure Details where
  duration_ms : Option JsNum
  error : Option ErrVal

/-- The `todo` field: absent, boolean, or a reason string. -/
inductive JsTodo where
  | undef
  | bool (b : Bool)
  | str (s : String)

/-- JS truthiness of the `todo` field. -/
def todoTruthy : JsTodo → Bool
  | JsTodo.undef => false
  | JsTodo.bool b => b
  | JsTodo.str s => !s.isEmpty

/-- JS truthiness of an optional boolean field. -/
def jsBoolTruthy (b : Option Bool) : Bool := b = some true

/-- JS truthiness of a possibly-`undefined` string (`''` is falsy). -/
def jsStrTruthy : Option String → Bool
  | some s => !s.isEmpty
  | none => false

/-- Interpolation of a possibly-`undefined` string into a template literal. -/
def jsStrInterp : Option String → String
  | some s => s
  | none => "undefined"

/-- The `data` payload of a reporter event (`TestReportData`). -/
structure TestReportData where
  message : Option String
  name : String
  nesting : Int
  file : Option String
  line : Option Int
  column : Option Int
  success : Option Bool
  details : Option Details
  todo : JsTodo
  skip : Option Bool
  duration_ms : Option JsNum

/-- A reporter event (`TestReport`): a type tag and a payload. -/
structure TestReport where
  type : String
  data : TestReportData

/-- A recorded failure: the event payload spread together with the computed
full hierarchical name (`{ ...data, fullName }`). -/
structure FailureRec where
  data : TestReportData
  fullName : String

/-- The ANSI color table of the reporter. -/
structure Colors where
  blue : String
  green : String
  white : String
  yellow : String
  red : String
  gray : String
  clear : String
  bold : String
  normal : String
  reset : String

/-- Source `TestReporter.colors`: the real ANSI escapes. -/
def realColors : Colors :=
  ⟨"\x1b[34m", "\x1b[32m", "\x1b[39m", "\x1b[33m", "\x1b[31m", "\x1b[90m",
    "\x1bc", "\x1b[1m", "\x1b[22m", "\x1b[0m"⟩

/-- The all-empty table used when coloring is disabled. -/
def noColors : Colors := ⟨"", "", "", "", "", "", "", "", "", ""⟩

/-- Source `TestReporter.symbols.fail`. -/
def failSym : String := "✖ "

/-- Source `TestReporter.symbols.pass`. -/
def passSym : String := "✔ "

/-- Source `TestReporter.symbols.diagnostic`. -/
def diagnosticSym : String := "ℹ "

/-- Source `TestReporter.symbols.rightArrow`. -/
def rightArrowSym : String := "▶ "

/-- Source `TestReporter.symbols.verticalBar`. -/
def verticalBarChar : Char := '│'

/-- External collaborators of the formatter, passed in for the model:
`node:path`'s `relative` and `node:util`'s `inspect` (its exact output never
matters to a claim). -/
structure Env where
  relative : String → String → String
  inspect : ErrVal → String

/-- The mutable private state of a `TestReporter` instance.  `currentFile`
is `some ""` at construction; assigning an event's absent `file` makes it
`none` (JS `undefined`), and both are falsy. -/
structure ReporterState where
  colors : Colors
  success : Option Bool
  counters : List (String × JsNum)
  files : List (Option String)
  failures : List (Option String × List FailureRec)
  executing : List String
  nesting : Int
  currentFile : Option String
  diagnosticShown : Bool
  cwd : String

/-- The constructor state of a reporter (`colorsOn` reflects the environment
color detection, read once). -/
def initState (colorsOn : Bool) (cwd : String) : ReporterState :=
  { colors := if colorsOn then realColors else noColors
    success := some true
    counters := []
    files := []
    failures := []
    executing := []
    nesting := 0
    currentFile := some ""
    diagnosticShown := false
    cwd := cwd }

/-- Source `#isFile`: `Boolean(data.file && data.file.endsWith(data.name))`. -/
def isFile (d : TestReportData) : Bool :=
  match d.file with
  | some f => !f.isEmpty && List.isSuffixOf d.name.data f.data
  | none => false

/-- Source `#indent(level, absolute, useSymbol)`: alternating vertical-bar
glyphs and spaces, two columns per level (plus the executing-stack depth
unless `absolute`), wrapped in gray. -/
def indentStr (st : ReporterState) (level : Nat) (absolute useSymbol : Bool) : String :=
  let bar : Char := if useSymbol ∧ st.colors.gray ≠ "" then verticalBarChar else ' '
  let length := ((if absolute then 0 else st.executing.length) + level) * 2
  let indentation :=
    if level = 0 ∧ absolute then String.mk [bar]
    else String.mk ((List.range length).map fun i => if i % 2 = 0 then bar else ' ')
  st.colors.gray ++ indentation ++ st.colors.reset

/-- Source `#getFullTestName`: the executing stack plus the event's name,
joined with a right-arrow separator. -/
def getFullTestName (st : ReporterState) (d : TestReportData) : String :=
  String.intercalate (" " ++ rightArrowSym) (st.executing ++ [d.name])

/-- Source `#getTimeoutErrorValue`: extract the millisecond count from the
anchored timeout message, defaulting to `0`. -/
def getTimeoutErrorValue (error : Option ErrVal) : Nat :=
  (((error.bind ErrVal.message).bind fun m => timeoutMatch m.data).map parseIntDigits).getD 0

/-- Assignment `this.#counters[name] = value` on a JS object: update in
place when the key exists, append otherwise. -/
def setCounter (cs : List (String × JsNum)) (k : String) (v : JsNum) :
    List (String × JsNum) :=
  if (cs.lookup k).isSome then cs.map fun p => if p.1 = k then (p.1, v) else p
  else cs ++ [(k, v)]

/-- The `Map`-backed failure bucket push: create the bucket on first use
(insertion order preserved), then append the record. -/
def pushFailure (fs : List (Option String × List FailureRec)) (key : Option String)
    (r : FailureRec) : List (Option String × List FailureRec) :=
  if (fs.lookup key).isSome then
    fs.map fun p => if p.1 = key then (p.1, p.2 ++ [r]) else p
  else fs ++ [(key, [r])]

/-- Source `#formatError`: stringify the cause (a string cause is used
verbatim, an error cause goes through `util.inspect`, an absent cause
stringifies to `"undefined"`), normalize CRLF, then prefix every nonempty
line with the current indentation, between blank separator lines. -/
def formatError (env : Env) (st : ReporterState) (cause : Option (String ⊕ ErrVal)) :
    String :=
  let indentation := indentStr st 2 false true
  let s := match cause with
    | some (Sum.inl s) => s
    | some (Sum.inr e) => env.inspect e
    | none => "undefined"
  let formatted := String.mk (replaceCRLF s.data) ++ "\n"
  let prefixed := String.intercalate "\n"
    ((splitOnNl formatted.data).map fun l =>
      if l.isEmpty then String.mk l else indentation ++ String.mk l)
  indentation ++ "\n" ++ prefixed ++ indentation ++ "\n"

/-- Tail of `#handleTestStart` after the header logic: the parent breadcrumb
on a nesting increase, then push the name and record the nesting. -/
def startFinish (st : ReporterState) (d : TestReportData) (m : String) :
    ReporterState × Except JsError String :=
  let m1 :=
    if d.nesting > st.nesting then
      m ++ indentStr st 0 false true ++ rightArrowSym ++ jsStrInterp st.executing.getLast? ++
        "\n" ++ indentStr st 1 false true ++ "\n"
    else m
  ({ st with executing := st.executing ++ [d.name], nesting := d.nesting }, Except.ok m1)

/-- Source `#handleTestStart`.  A file-level pseudo-event returns before any
output or push; a new file emits the file header (throwing a `TypeError` via
`relative` when the event has no `file`, after `currentFile` was already
reassigned); a just-shown diagnostic inserts a separator. -/
def handleTestStart (env : Env) (st : ReporterState) (d : TestReportData) :
    ReporterState × Except JsError String :=
  let indentation := indentStr st 1 false true
  if isFile d then (st, Except.ok "")
  else if d.file ≠ st.currentFile then
    let m0 := if jsStrTruthy st.currentFile then indentation ++ "\n" else ""
    let st1 := { st with currentFile := d.file }
    match d.file with
    | none => (st1, Except.error JsError.typeError)
    | some f =>
      startFinish st1 d
        (m0 ++ st.colors.gray ++ st.colors.bold ++ rightArrowSym ++ st.colors.normal ++
          env.relative st.cwd f ++ "\n" ++ indentation ++ "\n")
  else if st.diagnosticShown then
    let st1 := { st with diagnosticShown := false }
    startFinish st1 d (indentStr st1 2 false true ++ "\n")
  else startFinish st d ""

/-- Tail of `#handleTestEnd` (source lines 398-406): dedent separator or
standard indentation, then record the nesting. -/
def finishTestEnd (st : ReporterState) (d : TestReportData) (msg : String) :
    ReporterState × Except JsError String :=
  let m :=
    if d.nesting < st.nesting then
      indentStr st 2 false true ++ "\n" ++ indentStr st 1 false true ++ msg
    else if ¬ isFile d then indentStr st 1 false true ++ msg
    else msg
  ({ st with nesting := d.nesting }, Except.ok m)

/-- The failure-reason suffix switch of `#handleTestEnd` (no `default`
case: an unrecognized `failureType` appends nothing). -/
def failureSuffix (env : Env) (st : ReporterState) (name : String) (err : ErrVal)
    (durationFooter : String) : String :=
  match err.failureType with
  | some "callbackAndPromisePresent" =>
    name ++ " - Test both accepted a callback but returned a Promise. " ++ durationFooter
  | some "cancelledByParent" =>
    name ++ " - Test cancelled by its parent. " ++ durationFooter
  | some "testAborted" => name ++ " - Test aborted. " ++ durationFooter
  | some "parentAlreadyFinished" =>
    name ++ " - Parent test already completed. " ++ durationFooter
  | some "subtestsFailed" =>
    let amount := (((err.message.bind fun m => subtestsFailedMatch m.data).map
      parseIntDigits).getD 0)
    name ++ " - " ++ natStr amount ++ " " ++ pluralize "subtest" (some (jsInt amount)) ++
      " failed. " ++ durationFooter
  | some "testCodeFailure" => name ++ " " ++ durationFooter ++ formatError env st err.cause
  | some "testTimeoutFailure" =>
    name ++ " - Test timed out after " ++ natStr (getTimeoutErrorValue (some err)) ++
      "ms. " ++ durationFooter
  | some "hookFailed" =>
    let hook := (((err.message.bind fun m => hookSearch m.data).map String.mk).getD
      "unknown")
    name ++ " - Error while running " ++ hook ++ " hook. " ++ durationFooter ++
      formatError env st err.cause
  | _ => ""

/-- Source `#handleTestEnd`.  The pop and (for real failures) the bucket
push happen before the message is composed, so they survive the
`TypeError`s thrown when `details` (or, on failure, `details.error`) is
absent. -/
def handleTestEnd (env : Env) (st : ReporterState) (d : TestReportData)
    (passed : Bool) : ReporterState × Except JsError String :=
  let c := st.colors
  let todoSuffix := match d.todo with
    | JsTodo.str s => if !s.isEmpty then ":" ++ c.normal ++ " " ++ s else ""
    | _ => ""
  let st1 := if isFile d then st else { st with executing := st.executing.dropLast }
  let fullName := getFullTestName st1 d
  if passed then
    match d.details with
    | none => (st1, Except.error JsError.typeError)
    | some det =>
      let base := if jsBoolTruthy d.skip then c.gray ++ passSym else c.green ++ passSym
      let m0 := base ++ d.name ++ " " ++ c.gray ++ "(" ++ jsFieldStr det.duration_ms ++
        "ms)" ++ c.reset
      let m1 :=
        if todoTruthy d.todo then m0 ++ " " ++ c.bold ++ "# TODO" ++ todoSuffix ++ c.reset
        else if jsBoolTruthy d.skip then m0 ++ " " ++ c.bold ++ "# SKIP" ++ c.reset
        else m0
      finishTestEnd st1 d (m1 ++ "\n")
  else
    let branch : ReporterState × String :=
      if isFile d then (st1, env.relative st.cwd (jsStrInterp d.file))
      else
        ({ st1 with failures := pushFailure st1.failures d.file ⟨d, fullName⟩ }, d.name)
    let st2 := branch.1
    let name := branch.2
    match d.details with
    | none => (st2, Except.error JsError.typeError)
    | some det =>
      match det.error with
      | none => (st2, Except.error JsError.typeError)
      | some err =>
        let durationFooter := c.gray ++ "(" ++ jsFieldStr det.duration_ms ++ "ms)" ++
          c.reset ++ "\n"
        let m1 := c.red ++ failSym ++ failureSuffix env st2 name err durationFooter
        let m2 := if isFile d then indentStr st2 0 true true ++ "\n" ++ m1 else m1
        finishTestEnd st2 d m2

/-- Source `#handleDiagnostic`: a message containing a `SUMMARY_MATCHER`
match silently overwrites the counter with the parsed value; any other
message is rendered with the diagnostic glyph (throwing when the message is
absent, after `diagnosticShown` was already set). -/
def handleDiagnostic (st : ReporterState) (d : TestReportData) :
    ReporterState × Except JsError String :=
  match d.message.bind fun m => summarySearch m.data with
  | some (name, numText, _) =>
    ({ st with counters := setCounter st.counters name (parseDecimal numText) },
      Except.ok "")
  | none =>
    let st1 := { st with diagnosticShown := true }
    match d.message with
    | none => (st1, Except.error JsError.typeError)
    | some m =>
      let formatted := (splitOnNl m.data).enum.map fun p =>
        if p.1 > 0 then
          indentStr st1 2 false true ++ indentStr st1 1 true false ++ st.colors.blue ++
            String.mk p.2
        else String.mk p.2
      (st1, Except.ok (indentStr st1 2 false true ++ st.colors.blue ++ diagnosticSym ++
        String.intercalate "\n" formatted ++ "\n"))

/-- The `switch` of `_transform`: one branch per event type, the default
branch ignoring the event. -/
def dispatch (env : Env) (st : ReporterState) (ev : TestReport) :
    ReporterState × Except JsError String :=
  if ev.type = "test:enqueue" then
    (if st.files.contains ev.data.file then st
      else { st with files := st.files ++ [ev.data.file] }, Except.ok "")
  else if ev.type = "test:stderr" ∨ ev.type = "test:stdout" then
    (st, Except.ok (jsStrInterp ev.data.message))
  else if ev.type = "test:start" then handleTestStart env st ev.data
  else if ev.type = "test:pass" then
    if isFile ev.data then (st, Except.ok "") else handleTestEnd env st ev.data true
  else if ev.type = "test:fail" then handleTestEnd env st ev.data false
  else if ev.type = "test:diagnostic" then handleDiagnostic st ev.data
  else if ev.type = "test:summary" then
    ({ st with success := ev.data.success }, Except.ok "")
  else (st, Except.ok "")

/-- Source `_transform`: the event dispatch.  Every non-throwing branch has
`colors.reset` appended to its output by the final `callback` call; a throw
reaches the stream machinery instead. -/
def transform (env : Env) (st : ReporterState) (ev : TestReport) :
    ReporterState × Except JsError String :=
  let r := dispatch env st ev
  match r.2 with
  | Except.ok m => (r.1, Except.ok (m ++ st.colors.reset))
  | Except.error e => (r.1, Except.error e)

/-- Per-file loop of the `_flush` failure block: collects the deduplicated
relative file names (insertion order) and the per-file sections; throws when
a bucket key is absent (JS `relative(cwd, undefined)`). -/
def failuresLoop (env : Env) (st : ReporterState) :
    List (Option String × List FailureRec) → Nat → List String → String →
    Except JsError (List String × String)
  | [], _, fwf, acc => Except.ok (fwf, acc)
  | (file, failures) :: rest, i, fwf, acc =>
    match file with
    | none => Except.error JsError.typeError
    | some f =>
      let c := st.colors
      let relativeFile := env.relative st.cwd f
      let fwf2 := if fwf.contains relativeFile then fwf else fwf ++ [relativeFile]
      let seg := (if i > 0 then indentStr st 2 false true ++ "\n" else "") ++
        indentStr st 1 false true ++ c.gray ++ rightArrowSym ++ c.bold ++ relativeFile ++
        c.reset ++ "\n" ++ indentStr st 2 false true ++ "\n" ++
        String.join (failures.map fun r =>
          indentStr st 2 false true ++ c.gray ++ "-" ++ c.reset ++ " " ++ c.bold ++
            r.fullName ++ c.normal ++ " " ++ c.gray ++ "(" ++ relativeFile ++ ":" ++
            (match r.data.line with
              | some i => intStr i
              | none => "undefined") ++ ")" ++ c.reset ++ "\n")
      failuresLoop env st rest (i + 1) fwf2 (acc ++ seg)

/-- The failure block of `_flush` (only entered when the bucket map is
nonempty). -/
def failuresBlock (env : Env) (st : ReporterState) : Except JsError String :=
  let c := st.colors
  let fileIndentation := indentStr st 1 false true
  match failuresLoop env st st.failures 0 [] "" with
  | Except.error e => Except.error e
  | Except.ok (fwf, body) =>
    Except.ok ("\n\n" ++ c.red ++ c.bold ++ failSym ++ "Failed tests:\n" ++
      fileIndentation ++ "\n" ++ c.reset ++ body ++
      "\n" ++ c.red ++ c.bold ++ failSym ++ "Files with failures:\n" ++
      fileIndentation ++ "\n" ++ c.reset ++
      String.join (fwf.map fun file =>
        indentStr st 1 false true ++ c.gray ++ "-" ++ c.reset ++ " " ++ c.bold ++ file ++
          c.normal ++ "\n"))

/-- Source `_flush`: the no-tests message when no file ever became current,
otherwise the headline (formatted duration, `pass + todo` passing out of
`tests` over the file count), the skipped/cancelled parenthetical, and the
failure block. -/
def flush (env : Env) (st : ReporterState) : Except JsError String :=
  let c := st.colors
  if ¬ jsStrTruthy st.currentFile then
    Except.ok ("\n" ++ c.blue ++ rightArrowSym ++
      "No tests to run or all test might have been skipped or excluded.\n\n")
  else
    let duration := st.counters.lookup "duration_ms"
    let passed := st.counters.lookup "pass"
    let tests := st.counters.lookup "tests"
    let skipped := st.counters.lookup "skipped"
    let todo := st.counters.lookup "todo"
    let cancelled := st.counters.lookup "cancelled"
    let files := st.files.length
    let todoMessage :=
      if jsGtZero todo then
        " (including " ++ c.bold ++ jsFieldStr todo ++ " " ++ pluralize "TODO" passed ++
          c.normal ++ ")"
      else ""
    let m1 := "\n" ++ c.blue ++ rightArrowSym ++ c.bold ++ "Execution " ++ c.bold ++
      (if jsBoolTruthy st.success then c.green ++ "PASSED" else c.red ++ "FAILED") ++
      c.reset ++ c.blue ++ " after " ++ c.bold ++ formatDuration duration ++ c.normal ++
      " with " ++ c.bold ++ jsSumStr (jsAdd passed todo) ++ " " ++
      pluralize "test" (jsAdd passed todo) ++ c.normal ++ todoMessage ++
      " passing out of " ++ c.bold ++ jsFieldStr tests ++ " " ++ pluralize "test" tests ++
      c.normal ++ " over " ++ c.bold ++ natStr files ++ " " ++
      pluralize "file" (some (jsInt files)) ++ c.normal
    let m2 :=
      if jsGtZero skipped ∨ jsGtZero todo ∨ jsGtZero cancelled then
        let ne1 : List String :=
          if jsGtZero skipped then
            [c.bold ++ jsFieldStr skipped ++ " " ++ pluralize "test" skipped ++ c.normal ++
              " " ++ pastBeingVerb skipped ++ " skipped"]
          else []
        let ne2 := ne1 ++
          (if jsGtZero cancelled then
            [c.bold ++ jsFieldStr cancelled ++ " " ++ pluralize "test" cancelled ++
              c.normal ++ " " ++ pastBeingVerb cancelled ++ " cancelled"]
          else [])
        if !ne2.isEmpty then m1 ++ " (" ++ niceJoinD ne2 ++ ")." else m1
      else m1 ++ "."
    if st.failures.isEmpty then Except.ok (m2 ++ "\n\n")
    else
      match failuresBlock env st with
      | Except.ok fb => Except.ok (m2 ++ fb ++ "\n\n")
      | Except.error e => Except.error e

/-- Fold a whole event stream through `_transform` from a given state,
keeping the state mutations of every event (a JS throw destroys the stream,
but the state object retains the mutations made before the throw). -/
def runEvents (env : Env) : ReporterState → List TestReport → ReporterState
  | st, [] => st
  | st, ev :: rest => runEvents env (transform env st ev).1 rest

/-- Bool-valued substring test on character lists. -/
def listInfixOf (needle hay : List Char) : Bool :=
  match hay with
  | [] => needle.isEmpty
  | c :: t => needle.isPrefixOf (c :: t) || listInfixOf needle t

/-- The failure bucket of one file key (`[]` when the key is absent). -/
def bucket (fs : List (Option String × List FailureRec)) (k : Option String) :
    List FailureRec :=
  (fs.lookup k).getD []

/-- The eight `failureType` values the source switch recognizes. -/
def recognizedFailureTypes : List String :=
  ["callbackAndPromisePresent", "cancelledByParent", "testAborted",
   "parentAlreadyFinished", "subtestsFailed", "testCodeFailure",
   "testTimeoutFailure", "hookFailed"]

/-- Concrete environment used by the closed evaluation theorems: path
relativization and error inspection are external collaborators, so any
instantiation is admissible for a counterexample. -/
def envA : Env := ⟨fun _ f => f, fun _ => "[inspected error]"⟩

/-- An event payload with every optional field absent. -/
def blankData : TestReportData :=
  ⟨none, "", 0, none, none, none, none, none, JsTodo.undef, none, none⟩

/-- The colors-off reporter state at construction. -/
def st0 : ReporterState := initState false "/cwd"

/-- The colors-on reporter state at construction. -/
def stColor : ReporterState := initState true "/cwd"

/-- A `test:pass` event for a real test whose optional `details` is absent. -/
def passEvNoDetails : TestReport :=
  { type := "test:pass", data := { blankData with name := "t", file := some "/app/f.test.js" } }

/-- A `test:fail` event for a real test whose optional `details` is absent. -/
def failEvNoDetails : TestReport :=
  { type := "test:fail", data := { blankData with name := "t", file := some "/app/f.test.js" } }

/-- An event payload whose `name` is a strict suffix of the file's basename:
`name` is not the basename, yet `file.endsWith(name)` holds. -/
def dataC2 : TestReportData :=
  { blankData with name := "test.js", file := some "/a/xtest.js" }

/-- A `test:diagnostic` event carrying the given message. -/
def diagEv (m : String) : TestReport :=
  { type := "test:diagnostic", data := { blankData with message := some m } }

/-- An error whose `failureType` is none of the eight recognized values. -/
def errWeird : ErrVal := ErrVal.mk (some "boom") (some "weird") none

/-- The `details` of a failing test with a 5ms duration and the
unrecognized error. -/
def detC4 : Details := ⟨some (jsInt 5), some errWeird⟩

/-- A real (non-file-level) `test:fail` event with an unrecognized
`failureType`. -/
def failEvC4 : TestReport :=
  { type := "test:fail",
    data := { blankData with
      name := "mytest"
      file := some "/app/f.test.js"
      details := some detC4 } }

/-- A `test:start` event that makes `/app/first.test.js` the current file. -/
def startEvC6 : TestReport :=
  { type := "test:start",
    data := { blankData with name := "t", file := some "/app/first.test.js" } }

/-- The state after the C6 scenario: one file started, then summary
diagnostics `tests 10`, `pass 7`, `skipped 2`, `todo 1`, `duration_ms 1000`. -/
def stC6 : ReporterState :=
  runEvents envA st0
    [startEvC6, diagEv "tests 10", diagEv "pass 7", diagEv "skipped 2",
     diagEv "todo 1", diagEv "duration_ms 1000"]

/-- The exact flush output of the C6 scenario (colors disabled). -/
def outC6 : String :=
  "\n▶ Execution PASSED after 1 second with 8 tests (including 1 TODOs) passing out of 10 tests over 0 file (2 tests were skipped).\n\n"

/-- C1: processing a `test:pass` or `test:fail` event whose optional
`data.details` is absent does not render a fallback: `#handleTestEnd`
dereferences `data.details!` and throws a `TypeError`, modelled here as the
transform returning `Except.error` at this concrete input. -/
theorem C1_missing_details_throws :
    (transform envA st0 passEvNoDetails).2 = Except.error JsError.typeError ∧
    (transform envA st0 failEvNoDetails).2 = Except.error JsError.typeError :=
  ⟨rfl, rfl⟩

/-- C2 counterexample: an event named `test.js` with file `/a/xtest.js` has a
name that is not the basename (`xtest.js`) of its file, yet `#isFile`
classifies it as a file-level pseudo-event — suffix match, not basename
equality — so its `test:start` is suppressed and nothing is pushed. -/
theorem C2_counterexample :
    isFile dataC2 = true ∧
    basenameSpec "/a/xtest.js" ≠ dataC2.name ∧
    (handleTestStart envA st0 dataC2).2 = Except.ok "" ∧
    (handleTestStart envA st0 dataC2).1.executing = [] :=
  ⟨rfl, by decide, rfl, rfl⟩

/-- C3 counterexample: the diagnostics `pass 7` then `pass 3` leave the
`pass` counter at 3 — a matched summary diagnostic overwrites, rather than
accumulates, so a counter value can decrease. -/
theorem C3_counterexample :
    ((runEvents envA st0 [diagEv "pass 7"]).counters.lookup "pass").map
      (fun q => (q.num, q.den)) = some (7, 1) ∧
    ((runEvents envA st0 [diagEv "pass 7", diagEv "pass 3"]).counters.lookup
      "pass").map (fun q => (q.num, q.den)) = some (3, 1) ∧
    (3 : Int) < 7 :=
  ⟨rfl, rfl, by decide⟩

/-- C4 counterexample: a real `test:fail` whose `failureType` is the
unrecognized `"weird"` renders only indentation and the cross glyph — the
output contains neither the test name `mytest` nor the `5ms` duration. -/
theorem C4_counterexample :
    (transform envA st0 failEvC4).2 = Except.ok "  ✖ " ∧
    listInfixOf "mytest".data "  ✖ ".data = false ∧
    listInfixOf "5ms".data "  ✖ ".data = false ∧
    listInfixOf "✖".data "  ✖ ".data = true :=
  ⟨rfl, rfl, rfl, rfl⟩

/-- C5 counterexample: `pluralize('test', 0)` returns `test`, not `tests` —
the source condition `count > 1 || (count > 0 && count < 1)` excludes zero. -/
theorem C5_counterexample :
    pluralize "test" (some (jsInt 0)) = "test" ∧ "test" ≠ "test" ++ "s" :=
  ⟨rfl, by decide⟩

/-- C6 counterexample: with counters tests=10, pass=7, skipped=2, todo=1
accumulated from diagnostic lines and a current file set, the flush output
does not contain the literal text `8 tests passing out of 10`: the TODO
parenthetical is interposed between the count and `passing`. -/
theorem C6_counterexample :
    flush envA stC6 = Except.ok outC6 ∧
    listInfixOf "8 tests passing out of 10".data outC6.data = false :=
  ⟨rfl, rfl⟩

/-- C6 (amended): the flush summary shows `pass + todo` (8) passing out of
the `tests` counter (10) as the literal `8 tests (including 1 TODOs) passing
out of 10 tests` (the TODO clause, pluralized by the `pass` counter, sits
between the count and `passing`), together with the parenthetical
`(2 tests were skipped).`. -/
theorem C6_passing_count :
    flush envA stC6 = Except.ok outC6 ∧
    listInfixOf "8 tests (including 1 TODOs) passing out of 10 tests".data
      outC6.data = true ∧
    listInfixOf "(2 tests were skipped).".data outC6.data = true ∧
    ((stC6.counters.lookup "pass").map (fun q => (q.num, q.den)) = some (7, 1)) ∧
    ((stC6.counters.lookup "todo").map (fun q => (q.num, q.den)) = some (1, 1)) ∧
    ((stC6.counters.lookup "tests").map (fun q => (q.num, q.den)) = some (10, 1)) :=
  ⟨rfl, rfl, rfl, rfl, rfl, rfl⟩

/-- C7 counterexample: the message `a pass 5 b` is not, as a whole, of the
form `counterName <number>`, yet — the source regex being unanchored — the
diagnostic is swallowed (empty output) and the `pass` counter is set to 5. -/
theorem C7_counterexample :
    isSummaryFragmentSpec "a pass 5 b" = false ∧
    (handleDiagnostic st0 { blankData with message := some "a pass 5 b" }).2 =
      Except.ok "" ∧
    (((handleDiagnostic st0 { blankData with message := some "a pass 5 b"
      }).1.counters.lookup "pass").map fun q => (q.num, q.den)) = some (5, 1) :=
  ⟨rfl, rfl, rfl⟩

/-- C9 counterexample: `formatDuration(36000000)` is `10 hours and 0 second`,
which contains the substring `0 hours` — the claim's parenthetical gloss
fails even though no zero-valued tier is ever emitted as a component. -/
theorem C9_counterexample :
    formatDuration (some (jsInt 36000000)) = "10 hours and 0 second" ∧
    listInfixOf "0 hours".data "10 hours and 0 second".data = true :=
  ⟨rfl, rfl⟩

/-- C10 counterexample: with colors enabled, a `test:stdout` event with
message `hi` produces `hi` followed by the ANSI reset escape — not the
message verbatim. -/
theorem C10_counterexample :
    (transform envA stColor
      { type := "test:stdout", data := { blankData with message := some "hi" } }).2 =
      Except.ok "hi\x1b[0m" ∧
    ("hi\x1b[0m" : String) ≠ "hi" :=
  ⟨rfl, by decide⟩

/-- C5 (amended): `pluralize` appends `s` exactly when the count exceeds 1
or lies strictly between 0 and 1; a count of exactly 1, of 0, or negative
(and an `undefined`/NaN count) leaves the word unchanged. -/
theorem C5_pluralize (w : String) (c : JsNum) :
    ((1 < c.toRat ∨ (0 < c.toRat ∧ c.toRat < 1)) → pluralize w (some c) = w ++ "s") ∧
    ((c.toRat = 1 ∨ c.toRat ≤ 0) → pluralize w (some c) = w) := by
  have hcond : (jsLt (jsInt 1) c ∨ (jsLt (jsInt 0) c ∧ jsLt c (jsInt 1))) ↔
      (1 < c.toRat ∨ (0 < c.toRat ∧ c.toRat < 1)) := by
    rw [jsLt_iff, jsLt_iff, jsLt_iff, toRat_jsInt, toRat_jsInt]
    push_cast
    tauto
  constructor
  · intro h
    show (w ++ if _ then "s" else "") = w ++ "s"
    rw [if_pos (hcond.mpr h)]
  · intro h
    show (w ++ if _ then "s" else "") = w
    rw [if_neg]
    · simp
    · rw [hcond]
      rintro (h1 | ⟨h2, h3⟩) <;> rcases h with h4 | h4 <;> linarith

/-- C5 witness: the amended pluralization at counts 2 and 1. -/
theorem C5_witness :
    pluralize "test" (some (jsInt 2)) = "test" ++ "s" ∧
    pluralize "item" (some (jsInt 1)) = "item" :=
  ⟨(C5_pluralize "test" (jsInt 2)).1
      (Or.inl (by rw [toRat_jsInt]; norm_num)),
    (C5_pluralize "item" (jsInt 1)).2
      (Or.inl (by rw [toRat_jsInt]; norm_num))⟩

/-- C10 (amended): a `test:stdout` or `test:stderr` event leaves the state
untouched and outputs the message followed by the color-reset sequence —
so with colors disabled (empty reset) the output is the message verbatim,
and no indentation is ever added. -/
theorem C10_stdio_verbatim (env : Env) (st : ReporterState) (d : TestReportData)
    (m : String) (h : d.message = some m) :
    transform env st { type := "test:stdout", data := d } =
      (st, Except.ok (m ++ st.colors.reset)) ∧
    transform env st { type := "test:stderr", data := d } =
      (st, Except.ok (m ++ st.colors.reset)) ∧
    (st.colors.reset = "" → m ++ st.colors.reset = m) := by
  refine ⟨?_, ?_, ?_⟩
  · simp [transform, dispatch, h, jsStrInterp]
  · simp [transform, dispatch, h, jsStrInterp]
  · intro h0
    rw [h0]
    simp

/-- C10 witness: the amended stdout/stderr behavior at a concrete event. -/
theorem C10_witness :
    transform envA st0
      { type := "test:stdout", data := { blankData with message := some "hi" } } =
      (st0, Except.ok ("hi" ++ st0.colors.reset)) :=
  (C10_stdio_verbatim envA st0 { blankData with message := some "hi" } "hi" rfl).1

/-- C2 (amended): an event is classified as a file-level pseudo-event exactly
when its `file` is present, nonempty, and ends with its `name` (a suffix
match, which is implied by — but weaker than — name-equals-basename); a
file-level `test:start` produces no output and pushes nothing, while a
non-file `test:start` with a present file always pushes the name onto the
execution stack and completes without throwing. -/
theorem C2_isFile_suffix (d : TestReportData) :
    (isFile d = true ↔
      ∃ f, d.file = some f ∧ f ≠ "" ∧ List.isSuffixOf d.name.data f.data = true) ∧
    (∀ env st, isFile d = true → handleTestStart env st d = (st, Except.ok "")) ∧
    (∀ env st f, isFile d = false → d.file = some f →
      (handleTestStart env st d).1.executing = st.executing ++ [d.name] ∧
      ∃ m, (handleTestStart env st d).2 = Except.ok m) := by
  refine ⟨?_, ?_, ?_⟩
  · unfold isFile
    cases hf : d.file with
    | none => simp
    | some f =>
      constructor
      · intro h1
        rw [Bool.and_eq_true] at h1
        refine ⟨f, rfl, fun hempty => ?_, h1.2⟩
        rw [hempty] at h1
        exact absurd h1.1 (by decide)
      · rintro ⟨f2, hf2, hne, hsuf⟩
        injection hf2 with hf2
        subst hf2
        rw [Bool.and_eq_true]
        refine ⟨?_, hsuf⟩
        have hfe : f.isEmpty = false := by
          cases he : f.isEmpty
          · rfl
          · exact absurd ((String.isEmpty_iff f).mp he) hne
        rw [hfe]
        rfl
  · intro env st h
    unfold handleTestStart
    rw [if_pos h]
  · intro env st f h hf
    unfold handleTestStart startFinish
    rw [if_neg (by rw [h]; intro hc; cases hc)]
    rw [hf]
    by_cases h1 : some f ≠ st.currentFile
    · rw [if_pos h1]
      dsimp only
      exact ⟨rfl, _, rfl⟩
    · rw [if_neg h1]
      by_cases h2 : st.diagnosticShown
      · rw [if_pos h2]
        dsimp only
        exact ⟨rfl, _, rfl⟩
      · rw [if_neg h2]
        dsimp only
        exact ⟨rfl, _, rfl⟩

/-- C2 witness: the amended behavior at the concrete suffix-match event and
at a real test start. -/
theorem C2_witness :
    handleTestStart envA st0 dataC2 = (st0, Except.ok "") ∧
    (handleTestStart envA st0 passEvNoDetails.data).1.executing =
      st0.executing ++ ["t"] :=
  ⟨(C2_isFile_suffix dataC2).2.1 envA st0 (by decide),
    ((C2_isFile_suffix passEvNoDetails.data).2.2 envA st0 "/app/f.test.js"
      (by decide) rfl).1⟩

/-- The first component of `transform` is the dispatch state, whatever the
outcome. -/
theorem transform_fst (env : Env) (st : ReporterState) (ev : TestReport) :
    (transform env st ev).1 = (dispatch env st ev).1 := by
  unfold transform
  dsimp only
  split <;> rfl

/-- Handler `#handleTestStart` never touches the counters. -/
theorem counters_handleTestStart (env : Env) (st : ReporterState) (d : TestReportData) :
    (handleTestStart env st d).1.counters = st.counters := by
  unfold handleTestStart startFinish
  repeat' (first | rfl | split)

/-- Handler `#handleTestEnd` never touches the counters. -/
theorem counters_handleTestEnd (env : Env) (st : ReporterState) (d : TestReportData)
    (p : Bool) : (handleTestEnd env st d p).1.counters = st.counters := by
  unfold handleTestEnd finishTestEnd
  repeat' (first | rfl | split)

/-- Every non-diagnostic event leaves the counters unchanged. -/
theorem counters_dispatch (env : Env) (st : ReporterState) (ev : TestReport)
    (h : ev.type ≠ "test:diagnostic") : (dispatch env st ev).1.counters = st.counters := by
  unfold dispatch
  by_cases h1 : ev.type = "test:enqueue"
  · rw [if_pos h1]
    split <;> rfl
  rw [if_neg h1]
  by_cases h2 : ev.type = "test:stderr" ∨ ev.type = "test:stdout"
  · rw [if_pos h2]
  rw [if_neg h2]
  by_cases h3 : ev.type = "test:start"
  · rw [if_pos h3]
    exact counters_handleTestStart env st ev.data
  rw [if_neg h3]
  by_cases h4 : ev.type = "test:pass"
  · rw [if_pos h4]
    split
    · rfl
    · exact counters_handleTestEnd env st ev.data true
  rw [if_neg h4]
  by_cases h5 : ev.type = "test:fail"
  · rw [if_pos h5]
    exact counters_handleTestEnd env st ev.data false
  rw [if_neg h5]
  rw [if_neg h]
  by_cases h7 : ev.type = "test:summary"
  · rw [if_pos h7]
  · rw [if_neg h7]

/-- C3 (amended): only a `test:diagnostic` whose message contains a
`SUMMARY_MATCHER` match modifies the counters, and such an event overwrites
the matched counter with the newly parsed value — so a counter decreases
whenever a later summary diagnostic reports a smaller value (see the
counterexample), and is non-decreasing only if the reported values are. -/
theorem C3_counters (env : Env) (st : ReporterState) (ev : TestReport) :
    (ev.type ≠ "test:diagnostic" → (transform env st ev).1.counters = st.counters) ∧
    (∀ m n v r, ev.type = "test:diagnostic" → ev.data.message = some m →
      summarySearch m.data = some (n, v, r) →
      (transform env st ev).1.counters = setCounter st.counters n (parseDecimal v)) ∧
    (ev.type = "test:diagnostic" →
      ev.data.message.bind (fun m => summarySearch m.data) = none →
      (transform env st ev).1.counters = st.counters) := by
  refine ⟨?_, ?_, ?_⟩
  · intro h
    rw [transform_fst]
    exact counters_dispatch env st ev h
  · intro m n v r ht hm hs
    rw [transform_fst]
    unfold dispatch
    rw [ht]
    rw [if_neg (by decide), if_neg (by decide), if_neg (by decide),
      if_neg (by decide), if_neg (by decide), if_pos rfl]
    unfold handleDiagnostic
    rw [hm]
    simp only [Option.bind]
    rw [hs]
  · intro ht hnone
    rw [transform_fst]
    unfold dispatch
    rw [ht]
    rw [if_neg (by decide), if_neg (by decide), if_neg (by decide),
      if_neg (by decide), if_neg (by decide), if_pos rfl]
    unfold handleDiagnostic
    rw [hnone]
    cases hm2 : ev.data.message <;> rfl

/-- C3 witness: the amended overwrite behavior at a concrete diagnostic. -/
theorem C3_witness :
    (transform envA st0 (diagEv "pass 7")).1.counters =
      setCounter st0.counters "pass" (parseDecimal "7".data) :=
  (C3_counters envA st0 (diagEv "pass 7")).2.1 "pass 7" "pass" "7".data [] rfl rfl
    (by decide)

/-- C7 (amended): a `test:diagnostic` updates the counters and produces no
visible output exactly when its message contains (anywhere — the source
regex is unanchored) a fragment `counterName <number>`; any other message
leaves the counters alone, sets the diagnostic-shown flag, and renders
visibly (nonempty output) at two extra indentation levels with the blue
diagnostic glyph. -/
theorem C7_diagnostic (st : ReporterState) (d : TestReportData) (m : String)
    (h : d.message = some m) :
    (∀ n v r, summarySearch m.data = some (n, v, r) →
      handleDiagnostic st d =
        ({ st with counters := setCounter st.counters n (parseDecimal v) },
          Except.ok "")) ∧
    (summarySearch m.data = none →
      (handleDiagnostic st d).1.counters = st.counters ∧
      (handleDiagnostic st d).1.diagnosticShown = true ∧
      ∃ tail, (handleDiagnostic st d).2 = Except.ok
          (indentStr { st with diagnosticShown := true } 2 false true ++
            st.colors.blue ++ diagnosticSym ++ tail ++ "\n") ∧
        0 < (indentStr { st with diagnosticShown := true } 2 false true ++
            st.colors.blue ++ diagnosticSym ++ tail ++ "\n").length) := by
  constructor
  · intro n v r hs
    unfold handleDiagnostic
    rw [h]
    simp only [Option.bind]
    rw [hs]
  · intro hs
    unfold handleDiagnostic
    rw [h]
    simp only [Option.bind]
    rw [hs]
    dsimp only
    refine ⟨rfl, rfl, ⟨_, rfl, ?_⟩⟩
    simp only [String.length_append]
    have h2 : diagnosticSym.length = 2 := rfl
    omega

/-- C7 witness: the amended behavior at the matching diagnostic `tests 10`. -/
theorem C7_witness :
    handleDiagnostic st0 (diagEv "tests 10").data =
      ({ st0 with counters := setCounter st0.counters "tests" (parseDecimal "10".data) },
        Except.ok "") :=
  (C7_diagnostic st0 (diagEv "tests 10").data "tests 10" rfl).1 "tests" "10".data []
    (by decide)

/-- Lookup after the in-place bucket update of an existing key. -/
theorem lookup_map_update (fs : List (Option String × List FailureRec))
    (k : Option String) (r : FailureRec) (k2 : Option String) :
    ((fs.map fun p => if p.1 = k then (p.1, p.2 ++ [r]) else p).lookup k2) =
      if k2 = k then (fs.lookup k2).map (· ++ [r]) else fs.lookup k2 := by
  induction fs with
  | nil => by_cases h : k2 = k <;> simp [h]
  | cons p t ih =>
    rcases p with ⟨pk, pv⟩
    simp only [List.map_cons]
    by_cases h1 : pk = k
    · rw [if_pos h1]
      by_cases h2 : k2 = pk
      · have h3 : k2 = k := h2.trans h1
        rw [if_pos h3]
        simp only [List.lookup]
        rw [show (k2 == pk) = true from beq_iff_eq.mpr h2]
        simp
      · have h3 : k2 ≠ k := fun hc => h2 (hc.trans h1.symm)
        rw [if_neg h3]
        simp only [List.lookup]
        rw [show (k2 == pk) = false from by simp [h2]]
        exact ih.trans (if_neg h3)
    · rw [if_neg h1]
      by_cases h2 : k2 = pk
      · have h3 : k2 ≠ k := fun hc => h1 (h2.symm.trans hc)
        rw [if_neg h3]
        simp only [List.lookup]
        rw [show (k2 == pk) = true from beq_iff_eq.mpr h2]
      · by_cases h3 : k2 = k
        · rw [if_pos h3]
          simp only [List.lookup]
          rw [show (k2 == pk) = false from by simp [h2]]
          exact ih.trans (if_pos h3)
        · rw [if_neg h3]
          simp only [List.lookup]
          rw [show (k2 == pk) = false from by simp [h2]]
          exact ih.trans (if_neg h3)

/-- Lookup after appending a fresh key at the end. -/
theorem lookup_append_new (fs : List (Option String × List FailureRec))
    (k : Option String) (v : List FailureRec) (hnone : fs.lookup k = none)
    (k2 : Option String) :
    (fs ++ [(k, v)]).lookup k2 = if k2 = k then some v else fs.lookup k2 := by
  induction fs with
  | nil =>
    by_cases h : k2 = k
    · rw [if_pos h]
      simp only [List.nil_append, List.lookup]
      rw [show (k2 == k) = true from beq_iff_eq.mpr h]
    · rw [if_neg h]
      simp only [List.nil_append, List.lookup]
      rw [show (k2 == k) = false from by simp [h]]
  | cons p t ih =>
    rcases p with ⟨pk, pv⟩
    have hbe : (k == pk) = false := by
      cases hb : k == pk
      · rfl
      · simp [List.lookup, hb] at hnone
    have hne : ¬ k = pk := by
      intro hc
      rw [beq_iff_eq.mpr hc] at hbe
      cases hbe
    have ht : t.lookup k = none := by
      simp only [List.lookup, hbe] at hnone
      exact hnone
    simp only [List.cons_append, List.lookup]
    by_cases h2 : k2 = pk
    · rw [show (k2 == pk) = true from beq_iff_eq.mpr h2]
      have h3 : ¬ k2 = k := fun hc => hne (hc.symm.trans h2)
      rw [if_neg h3]
    · rw [show (k2 == pk) = false from by simp [h2]]
      simp only [List.append_eq]
      rw [ih ht]

/-- Effect of `pushFailure` on every bucket: the pushed key gains exactly
the new record at the end; every other bucket is untouched. -/
theorem bucket_pushFailure (fs : List (Option String × List FailureRec))
    (k : Option String) (r : FailureRec) (k2 : Option String) :
    bucket (pushFailure fs k r) k2 =
      if k2 = k then bucket fs k2 ++ [r] else bucket fs k2 := by
  unfold pushFailure bucket
  by_cases hs : (fs.lookup k).isSome
  · rw [if_pos hs, lookup_map_update]
    by_cases h : k2 = k
    · rw [if_pos h, if_pos h]
      subst h
      cases hl : fs.lookup k2
      · rw [hl] at hs
        cases hs
      · simp
    · rw [if_neg h, if_neg h]
  · rw [if_neg hs]
    have hnone : fs.lookup k = none := by
      cases hl : fs.lookup k
      · rfl
      · rw [hl] at hs
        cases hs rfl
    rw [lookup_append_new fs k [r] hnone]
    by_cases h : k2 = k
    · rw [if_pos h, if_pos h]
      subst h
      rw [hnone]
      rfl
    · rw [if_neg h, if_neg h]

/-- Handler `#handleTestStart` never touches the failure buckets. -/
theorem failures_handleTestStart (env : Env) (st : ReporterState) (d : TestReportData) :
    (handleTestStart env st d).1.failures = st.failures := by
  unfold handleTestStart startFinish
  repeat' (first | rfl | split)

/-- Handler `#handleDiagnostic` never touches the failure buckets. -/
theorem failures_handleDiagnostic (st : ReporterState) (d : TestReportData) :
    (handleDiagnostic st d).1.failures = st.failures := by
  unfold handleDiagnostic
  repeat' (first | rfl | split)

/-- A passing test end never touches the failure buckets. -/
theorem failures_handleTestEnd_pass (env : Env) (st : ReporterState)
    (d : TestReportData) : (handleTestEnd env st d true).1.failures = st.failures := by
  unfold handleTestEnd finishTestEnd
  repeat' (first | rfl | split)
  all_goals simp_all

/-- A failing test end pushes exactly one record for a real test and leaves
the buckets alone for a file-level pseudo-event — whether or not the message
composition later throws. -/
theorem failures_handleTestEnd_fail (env : Env) (st : ReporterState)
    (d : TestReportData) :
    (handleTestEnd env st d false).1.failures =
      if isFile d then st.failures
      else pushFailure st.failures d.file
        ⟨d, getFullTestName { st with executing := st.executing.dropLast } d⟩ := by
  unfold handleTestEnd finishTestEnd
  by_cases hf : isFile d <;>
    simp only [hf, if_true, if_false, Bool.false_eq_true, Bool.true_eq_false] <;>
    repeat' (first | rfl | split)

/-- Every non-`test:fail` event leaves the failure buckets unchanged. -/
theorem failures_dispatch_nonfail (env : Env) (st : ReporterState) (ev : TestReport)
    (h : ev.type ≠ "test:fail") : (dispatch env st ev).1.failures = st.failures := by
  unfold dispatch
  by_cases h1 : ev.type = "test:enqueue"
  · rw [if_pos h1]
    split <;> rfl
  rw [if_neg h1]
  by_cases h2 : ev.type = "test:stderr" ∨ ev.type = "test:stdout"
  · rw [if_pos h2]
  rw [if_neg h2]
  by_cases h3 : ev.type = "test:start"
  · rw [if_pos h3]
    exact failures_handleTestStart env st ev.data
  rw [if_neg h3]
  by_cases h4 : ev.type = "test:pass"
  · rw [if_pos h4]
    split
    · rfl
    · exact failures_handleTestEnd_pass env st ev.data
  rw [if_neg h4]
  rw [if_neg h]
  by_cases h6 : ev.type = "test:diagnostic"
  · rw [if_pos h6]
    exact failures_handleDiagnostic st ev.data
  rw [if_neg h6]
  by_cases h7 : ev.type = "test:summary"
  · rw [if_pos h7]
  · rw [if_neg h7]

/-- C8: a `test:fail` for a real (non-file-level) test appends exactly one
failure record — the event payload with its computed full name — to the
bucket keyed by the event's file; every other bucket is untouched; a
file-level `test:fail` adds nothing; no other event type changes the
buckets; hence every bucket only ever grows (old records stay as a prefix). -/
theorem C8_failure_buckets (env : Env) (st : ReporterState) (ev : TestReport) :
    (ev.type = "test:fail" → isFile ev.data = false →
      (bucket (transform env st ev).1.failures ev.data.file =
          bucket st.failures ev.data.file ++
            [⟨ev.data,
              getFullTestName { st with executing := st.executing.dropLast } ev.data⟩] ∧
        ∀ k, k ≠ ev.data.file →
          bucket (transform env st ev).1.failures k = bucket st.failures k)) ∧
    (ev.type = "test:fail" → isFile ev.data = true →
      (transform env st ev).1.failures = st.failures) ∧
    (ev.type ≠ "test:fail" → (transform env st ev).1.failures = st.failures) ∧
    (∀ k, bucket st.failures k <+: bucket (transform env st ev).1.failures k) := by
  have hfail : ev.type = "test:fail" →
      (transform env st ev).1.failures =
        if isFile ev.data then st.failures
        else pushFailure st.failures ev.data.file
          ⟨ev.data, getFullTestName { st with executing := st.executing.dropLast }
            ev.data⟩ := by
    intro ht
    rw [transform_fst]
    unfold dispatch
    rw [ht]
    rw [if_neg (by decide), if_neg (by decide), if_neg (by decide),
      if_neg (by decide), if_pos rfl]
    exact failures_handleTestEnd_fail env st ev.data
  refine ⟨?_, ?_, ?_, ?_⟩
  · intro ht hf
    rw [hfail ht, if_neg (by rw [hf]; intro hc; cases hc)]
    constructor
    · rw [bucket_pushFailure, if_pos rfl]
    · intro k hk
      rw [bucket_pushFailure, if_neg hk]
  · intro ht hf
    rw [hfail ht, if_pos hf]
  · intro ht
    rw [transform_fst]
    exact failures_dispatch_nonfail env st ev ht
  · intro k
    by_cases ht : ev.type = "test:fail"
    · rw [hfail ht]
      by_cases hf : isFile ev.data
      · rw [if_pos hf]
      · rw [if_neg hf, bucket_pushFailure]
        by_cases hk : k = ev.data.file
        · rw [if_pos hk]
          exact List.prefix_append _ _
        · rw [if_neg hk]
    · rw [transform_fst, failures_dispatch_nonfail env st ev ht]

/-- C8 witness: the concrete failing test appends its record to the bucket
of its file. -/
theorem C8_witness :
    bucket (transform envA st0 failEvC4).1.failures (some "/app/f.test.js") =
      bucket st0.failures (some "/app/f.test.js") ++
        [⟨failEvC4.data,
          getFullTestName { st0 with executing := st0.executing.dropLast }
            failEvC4.data⟩] :=
  ((C8_failure_buckets envA st0 failEvC4).1 rfl (by decide)).1

/-- A `failureType` outside the recognized eight yields no suffix at all:
neither name, nor duration, nor reason. -/
theorem failureSuffix_unrecognized (env : Env) (st : ReporterState) (name : String)
    (err : ErrVal) (df : String) (ft : String) (h3 : err.failureType = some ft)
    (h4 : ft ∉ recognizedFailureTypes) :
    failureSuffix env st name err df = "" := by
  unfold failureSuffix
  rw [h3]
  split <;> simp_all [recognizedFailureTypes]

/-- C4 (amended): a real `test:fail` whose error's `failureType` is not one
of the eight recognized values renders only the indentation and the red
cross glyph — the output contains neither the test name, nor the duration,
nor any failure-reason suffix — and processing does not crash (the result is
`Except.ok`). -/
theorem C4_unrecognized (env : Env) (st : ReporterState) (d : TestReportData)
    (det : Details) (err : ErrVal) (ft : String)
    (h1 : d.details = some det) (h2 : det.error = some err)
    (h3 : err.failureType = some ft) (h4 : ft ∉ recognizedFailureTypes)
    (h5 : isFile d = false) :
    (handleTestEnd env st d false).2 = Except.ok
      (if d.nesting < st.nesting then
        indentStr { st with executing := st.executing.dropLast } 2 false true ++ "\n" ++
          indentStr { st with executing := st.executing.dropLast } 1 false true ++
          (st.colors.red ++ failSym)
      else
        indentStr { st with executing := st.executing.dropLast } 1 false true ++
          (st.colors.red ++ failSym)) := by
  unfold handleTestEnd finishTestEnd
  simp only [h1, h2, h5, Bool.false_eq_true, if_false]
  rw [failureSuffix_unrecognized _ _ _ _ _ _ h3 h4]
  simp only [String.append_empty]
  split <;> rfl

/-- C4 witness: the amended rendering at the concrete unrecognized failure. -/
theorem C4_witness :
    (handleTestEnd envA st0 failEvC4.data false).2 = Except.ok
      (if failEvC4.data.nesting < st0.nesting then
        indentStr { st0 with executing := st0.executing.dropLast } 2 false true ++
          "\n" ++
          indentStr { st0 with executing := st0.executing.dropLast } 1 false true ++
          (st0.colors.red ++ failSym)
      else
        indentStr { st0 with executing := st0.executing.dropLast } 1 false true ++
          (st0.colors.red ++ failSym)) :=
  C4_unrecognized envA st0 failEvC4.data detC4 errWeird "weird" rfl rfl rfl
    (by decide) (by decide)

/-- A rendered natural number contains no dot. -/
theorem natStr_no_dot (n : Nat) : '.' ∉ (natStr n).data :=
  natChars_no_dot (n + 1) n

/-- A rendered integer contains no dot. -/
theorem intStr_no_dot (i : Int) : '.' ∉ (intStr i).data := by
  unfold intStr
  split
  · intro hmem
    rw [String.data_append] at hmem
    rcases List.mem_append.mp hmem with h1 | h2
    · rw [List.mem_singleton] at h1
      cases h1
    · exact natStr_no_dot _ h2
  · exact natStr_no_dot _

/-- An integer equals the floor of itself plus one half. -/
theorem intCast_eq_floor_add_half (z : Int) :
    (z : ℚ) = ((⌊(z : ℚ) + 1 / 2⌋ : Int) : ℚ) := by
  rw [Int.floor_int_add]
  norm_num

/-- Rendering `toFixedNN` with zero digits is the rendered rounded natural. -/
theorem toFixedNN_zero_no_dot (t : JsNum) : '.' ∉ (toFixedNN t 0).data := by
  show '.' ∉ (natStr _).data
  exact natStr_no_dot _

/-- Rendering `toFixed` with zero digits contains no dot. -/
theorem toFixed_zero_no_dot (s : JsNum) : '.' ∉ (toFixed (some s) 0).data := by
  show '.' ∉ ((if jsLt s (jsInt 0) then
    "-" ++ toFixedNN ⟨-s.num, s.den, s.den_pos⟩ 0 else toFixedNN s 0)).data
  split
  · intro hmem
    rw [String.data_append] at hmem
    rcases List.mem_append.mp hmem with h1 | h2
    · rw [List.mem_singleton] at h1
      cases h1
    · exact toFixedNN_zero_no_dot _ h2
  · exact toFixedNN_zero_no_dot s

/-- Rendering `toFixedNN` with three digits splits as integer part, dot, and exactly
three dot-free fraction digits. -/
theorem toFixedNN_three (q : JsNum) : ∃ (a : String) (b : List Char),
    toFixedNN q 3 = a ++ "." ++ String.mk b ∧ b.length = 3 ∧
      '.' ∉ a.data ∧ '.' ∉ b := by
  unfold toFixedNN
  refine ⟨_, _, rfl, ?_, natStr_no_dot _, ?_⟩
  · apply zeroPad_length
    apply natChars_length_le 3 (by omega)
    exact Nat.mod_lt _ (by norm_num)
  · exact zeroPad_no_dot _ _ (natChars_no_dot _ _)

/-- Rendering `toFixed` with three digits splits as sign and integer part, dot, and
exactly three dot-free fraction digits. -/
theorem toFixed_three (s : JsNum) : ∃ (a : String) (b : List Char),
    toFixed (some s) 3 = a ++ "." ++ String.mk b ∧ b.length = 3 ∧
      '.' ∉ a.data ∧ '.' ∉ b := by
  show ∃ (a : String) (b : List Char),
    (if jsLt s (jsInt 0) then
      "-" ++ toFixedNN ⟨-s.num, s.den, s.den_pos⟩ 3 else toFixedNN s 3) =
      a ++ "." ++ String.mk b ∧ b.length = 3 ∧ '.' ∉ a.data ∧ '.' ∉ b
  split
  · obtain ⟨a, b, hab, hb3, hna, hnb⟩ := toFixedNN_three ⟨-s.num, s.den, s.den_pos⟩
    refine ⟨"-" ++ a, b, ?_, hb3, ?_, hnb⟩
    · rw [hab]
      simp [String.append_assoc]
    · intro hmem
      rw [String.data_append] at hmem
      rcases List.mem_append.mp hmem with h1 | h2
      · rw [List.mem_singleton] at h1
        cases h1
      · exact hna h2
  · exact toFixedNN_three s

/-- The fractional test of `formatDuration` holds exactly when the value is
not an integer. -/
theorem jsFractional_iff (s : JsNum) :
    jsFractional (some s) = true ↔ ∀ z : Int, s.toRat ≠ (z : ℚ) := by
  show (decide (¬ jsEqInt s (jsRound s)) = true) ↔ _
  rw [decide_eq_true_eq, jsEqInt_iff]
  constructor
  · intro h z hz
    apply h
    rw [jsRound_eq, hz]
    exact intCast_eq_floor_add_half z
  · intro h hc
    exact h (jsRound s) hc

/-- The hours count pushed by `formatDuration` is at least 1. -/
theorem hours_ge_one (x : ℚ) (h : (3600 : ℚ) ≤ x) : 1 ≤ ⌊x / 3600⌋ := by
  rw [Int.le_floor]
  rw [show ((1 : Int) : ℚ) = 1 by norm_num]
  rw [le_div_iff (by norm_num : (0 : ℚ) < 3600)]
  linarith

/-- The minutes count pushed by `formatDuration` lies in `[1, 59]`. -/
theorem minutes_bounds (x : ℚ) (h1 : (60 : ℚ) ≤ x) (h2 : x < 3600) :
    1 ≤ ⌊x / 60⌋ ∧ ⌊x / 60⌋ ≤ 59 := by
  constructor
  · rw [Int.le_floor]
    rw [show ((1 : Int) : ℚ) = 1 by norm_num]
    rw [le_div_iff (by norm_num : (0 : ℚ) < 60)]
    linarith
  · have : ⌊x / 60⌋ < 60 := by
      rw [Int.floor_lt]
      rw [show ((60 : Int) : ℚ) = 60 by norm_num]
      rw [div_lt_iff (by norm_num : (0 : ℚ) < 60)]
      linarith
    omega

/-- Numeric reading of a `jsLe` comparison against an integer literal. -/
theorem jsLe_int_iff (n : Int) (x : JsNum) :
    jsLe (jsInt n) x ↔ (n : ℚ) ≤ x.toRat := by
  rw [jsLe_iff, toRat_jsInt]

/-- The hours component value is at least 1 when the branch is taken. -/
theorem hoursFloor_ge_one (x : JsNum) (hk : (0 : Nat) < 3600)
    (h : (3600 : ℚ) ≤ x.toRat) : 1 ≤ jsFloor (jsDivC x 3600 hk) := by
  rw [jsFloor_eq, toRat_jsDivC]
  rw [show ((3600 : ℕ) : ℚ) = 3600 by norm_num]
  exact hours_ge_one x.toRat h

/-- The minutes component value lies in `[1, 59]` when the branch is taken. -/
theorem minutesFloor_bounds (x : JsNum) (hk : (0 : Nat) < 60)
    (h1 : (60 : ℚ) ≤ x.toRat) (h2 : x.toRat < 3600) :
    1 ≤ jsFloor (jsDivC x 60 hk) ∧ jsFloor (jsDivC x 60 hk) ≤ 59 := by
  rw [jsFloor_eq, toRat_jsDivC]
  rw [show ((60 : ℕ) : ℚ) = 60 by norm_num]
  exact minutes_bounds x.toRat h1 h2

/-- The JS remainder of a nonnegative value by a positive constant lies in
`[0, k)`. -/
theorem jsModC_range (x : JsNum) (k : Nat) (hk : 0 < k) (h : 0 ≤ x.toRat) :
    0 ≤ (jsModC x k hk).toRat ∧ (jsModC x k hk).toRat < (k : ℚ) := by
  rw [toRat_jsModC x k hk ((toRat_nonneg x).mp h)]
  exact sub_mul_floor_bounds x.toRat k (by exact_mod_cast hk)

/-- C9 (amended): `formatDuration` never emits a zero-valued tier — every
hours component it pushes has value at least 1 and every minutes component
lies in `[1, 59]` — the component list always ends with the seconds
component, which is rendered through `toFixed` with three decimals exactly
when the residual seconds value is fractional (non-integral): with zero
digits the rendering contains no decimal point, with three digits it has a
decimal point followed by exactly three digits.  (The claim's substring
gloss `never contains "0 hours"` fails, e.g. at 36000000 ms — see the
counterexample.) -/
theorem C9_duration_tiers (q : JsNum) :
    (∀ n, DurPart.hours n ∈ durParts (some q) → 1 ≤ n) ∧
    (∀ n, DurPart.minutes n ∈ durParts (some q) → 1 ≤ n ∧ n ≤ 59) ∧
    (∃ s, (durParts (some q)).getLast? = some (DurPart.seconds (some s)) ∧
      renderDurPart (DurPart.seconds (some s)) =
        toFixed (some s) (if jsFractional (some s) then 3 else 0) ++ " " ++
          pluralize "second" (some s) ∧
      (jsFractional (some s) = true ↔ ∀ z : Int, s.toRat ≠ (z : ℚ)) ∧
      '.' ∉ (toFixed (some s) 0).data ∧
      (∃ (a : String) (b : List Char), toFixed (some s) 3 = a ++ "." ++ String.mk b ∧
        b.length = 3 ∧ '.' ∉ a.data ∧ '.' ∉ b)) := by
  by_cases h36 : jsLe (jsInt 3600) (jsDivC q 1000 (by omega))
  · have h36r : (3600 : ℚ) ≤ (jsDivC q 1000 (by omega)).toRat := by
      have := (jsLe_int_iff 3600 _).mp h36
      exact_mod_cast this
    have hmodr := jsModC_range (jsDivC q 1000 (by omega)) 3600 (by omega)
      (le_trans (by norm_num) h36r)
    by_cases h60 : jsLe (jsInt 60) (jsModC (jsDivC q 1000 (by omega)) 3600 (by omega))
    · have h60r : (60 : ℚ) ≤ (jsModC (jsDivC q 1000 (by omega)) 3600 (by omega)).toRat := by
        have := (jsLe_int_iff 60 _).mp h60
        exact_mod_cast this
      have hd : durParts (some q) = [
          DurPart.hours (jsFloor (jsDivC (jsDivC q 1000 (by omega)) 3600 (by omega))),
          DurPart.minutes (jsFloor (jsDivC
            (jsModC (jsDivC q 1000 (by omega)) 3600 (by omega)) 60 (by omega))),
          DurPart.seconds (some (jsModC
            (jsModC (jsDivC q 1000 (by omega)) 3600 (by omega)) 60 (by omega)))] := by
        simp only [durParts]
        rw [if_pos h36, if_pos h36, if_pos h60, if_pos h60]
        rfl
      rw [hd]
      refine ⟨?_, ?_, ?_⟩
      · intro n hn
        rcases List.mem_cons.mp hn with h | h
        · rw [DurPart.hours.injEq] at h
          subst h
          exact hoursFloor_ge_one _ _ h36r
        · simp at h
      · intro n hn
        rcases List.mem_cons.mp hn with h | h
        · simp at h
        rcases List.mem_cons.mp h with h | h
        · rw [DurPart.minutes.injEq] at h
          subst h
          refine minutesFloor_bounds _ _ h60r ?_
          have := hmodr.2
          calc (jsModC (jsDivC q 1000 (by omega)) 3600 (by omega)).toRat
              < ((3600 : ℕ) : ℚ) := this
            _ = 3600 := by norm_num
        · simp at h
      · exact ⟨_, rfl, rfl, jsFractional_iff _, toFixed_zero_no_dot _, toFixed_three _⟩
    · have hd : durParts (some q) = [
          DurPart.hours (jsFloor (jsDivC (jsDivC q 1000 (by omega)) 3600 (by omega))),
          DurPart.seconds (some (jsModC (jsDivC q 1000 (by omega)) 3600 (by omega)))] := by
        simp only [durParts]
        rw [if_pos h36, if_pos h36, if_neg h60, if_neg h60]
        rfl
      rw [hd]
      refine ⟨?_, ?_, ?_⟩
      · intro n hn
        rcases List.mem_cons.mp hn with h | h
        · rw [DurPart.hours.injEq] at h
          subst h
          exact hoursFloor_ge_one _ _ h36r
        · simp at h
      · intro n hn
        rcases List.mem_cons.mp hn with h | h
        · simp at h
        · simp at h
      · exact ⟨_, rfl, rfl, jsFractional_iff _, toFixed_zero_no_dot _, toFixed_three _⟩
  · have h36r : (jsDivC q 1000 (by omega)).toRat < 3600 := by
      rw [jsLe_int_iff] at h36
      push_neg at h36
      exact_mod_cast h36
    by_cases h60 : jsLe (jsInt 60) (jsDivC q 1000 (by omega))
    · have h60r : (60 : ℚ) ≤ (jsDivC q 1000 (by omega)).toRat := by
        have := (jsLe_int_iff 60 _).mp h60
        exact_mod_cast this
      have hd : durParts (some q) = [
          DurPart.minutes (jsFloor (jsDivC (jsDivC q 1000 (by omega)) 60 (by omega))),
          DurPart.seconds (some (jsModC (jsDivC q 1000 (by omega)) 60 (by omega)))] := by
        simp only [durParts]
        rw [if_neg h36, if_neg h36, if_pos h60, if_pos h60]
        rfl
      rw [hd]
      refine ⟨?_, ?_, ?_⟩
      · intro n hn
        rcases List.mem_cons.mp hn with h | h
        · simp at h
        · simp at h
      · intro n hn
        rcases List.mem_cons.mp hn with h | h
        · rw [DurPart.minutes.injEq] at h
          subst h
          exact minutesFloor_bounds _ _ h60r h36r
        · simp at h
      · exact ⟨_, rfl, rfl, jsFractional_iff _, toFixed_zero_no_dot _, toFixed_three _⟩
    · have hd : durParts (some q) =
          [DurPart.seconds (some (jsDivC q 1000 (by omega)))] := by
        simp only [durParts]
        rw [if_neg h36, if_neg h36, if_neg h60, if_neg h60]
        rfl
      rw [hd]
      refine ⟨?_, ?_, ?_⟩
      · intro n hn
        simp at hn
      · intro n hn
        simp at hn
      · exact ⟨_, rfl, rfl, jsFractional_iff _, toFixed_zero_no_dot _, toFixed_three _⟩

/-- C9 witness: the amended tier bounds at 3723500 ms (1 hour, 2 minutes,
3.5 seconds). -/
theorem C9_witness :
    (1 : Int) ≤ 1 ∧ ((1 : Int) ≤ 2 ∧ (2 : Int) ≤ 59) :=
  ⟨(C9_duration_tiers (jsInt 3723500)).1 1 (List.mem_cons_self _ _),
    (C9_duration_tiers (jsInt 3723500)).2.1 2
      (List.mem_cons_of_mem _ (List.mem_cons_self _ _))⟩

end CleanerSpec
